import Mathlib

/-!
Shallow embedding of the playback timeline engine of the `music_slower`
web audio player (three near-duplicate front-end variants).

Device times, buffer positions, rates and sample values are modelled as
exact rationals (the source computes with JS numbers; the spec reasons in
real arithmetic, and every operation used is field arithmetic and order
comparison, so `ℚ` is a faithful executable carrier).

The mutable module-level variables `audioBuffer`, `isPlaying`, `startTime`,
`pausedAt`, `playbackRate` become the fields of `PlayerState`; each handler
becomes a function `ℚ → PlayerState → PlayerState` (taking the current
device time `now` = `audioCtx.currentTime` where the source reads it).

Variant naming: functions with no suffix embed `src/unnamed/part_002`
(whose logic the third variant, the second half of `part_001`, duplicates);
functions suffixed `B` embed the first variant of `src/unnamed/part_001`
(lines 1-489) where it differs.
-/

namespace MusicSlower

/-- The module-level playback state shared by all handlers.
`hasBuffer`/`duration` stand for `audioBuffer` (null test and `.duration`);
the remaining fields are the homonymous module variables. -/
structure PlayerState where
  hasBuffer : Bool
  duration : ℚ
  isPlaying : Bool
  startTime : ℚ
  pausedAt : ℚ
  playbackRate : ℚ
deriving Repr, DecidableEq

/-- `stopAudio` (part_002 lines 178-189): tears down the source node,
clears `isPlaying`, resets `pausedAt` and `startTime` to 0. -/
def stopAudio (s : PlayerState) : PlayerState :=
  { s with isPlaying := false, pausedAt := 0, startTime := 0 }

/-- `getCurrentTime` (part_002 lines 226-235): when not playing returns the
held `pausedAt`; when playing computes `pausedAt + (now - startTime) *
playbackRate`, and if that exceeds the buffer duration, clamps the returned
value to the duration and auto-stops.  Returns the value together with the
possibly changed state. -/
def getCurrentTime (now : ℚ) (s : PlayerState) : ℚ × PlayerState :=
  if s.isPlaying then
    let elapsed := now - s.startTime
    let time := s.pausedAt + elapsed * s.playbackRate
    if time > s.duration then (s.duration, stopAudio s) else (time, s)
  else (s.pausedAt, s)

/-- `playAudio` (part_002 lines 114-140): no-op without a buffer; otherwise
starts a render chain at offset `pausedAt` and sets
`startTime = audioCtx.currentTime - pausedAt`. -/
def playAudio (now : ℚ) (s : PlayerState) : PlayerState :=
  if s.hasBuffer then { s with startTime := now - s.pausedAt, isPlaying := true }
  else s

/-- `playAudio` of the first part_001 variant (lines 181-231): identical
except that after the commented-out derivation it settles on
`startTime = audioCtx.currentTime`. -/
def playAudioB (now : ℚ) (s : PlayerState) : PlayerState :=
  if s.hasBuffer then { s with startTime := now, isPlaying := true }
  else s

/-- `pauseAudio` (part_002 lines 142-176): stops the node and overwrites
`pausedAt = (audioCtx.currentTime - startTime) * playbackRate`. -/
def pauseAudio (now : ℚ) (s : PlayerState) : PlayerState :=
  { s with pausedAt := (now - s.startTime) * s.playbackRate, isPlaying := false }

/-- `pauseAudio` of the first part_001 variant (lines 233-249): accumulates
`pausedAt += (now - startTime) * playbackRate` and clamps to the duration. -/
def pauseAudioB (now : ℚ) (s : PlayerState) : PlayerState :=
  let p := s.pausedAt + (now - s.startTime) * s.playbackRate
  let p2 := if p > s.duration then s.duration else p
  { s with pausedAt := p2, isPlaying := false }

/-- `internalPause` (part_002 lines 210-218): stops the node without
touching `pausedAt`. -/
def internalPause (s : PlayerState) : PlayerState :=
  { s with isPlaying := false }

/-- `togglePlayPause` (part_002 lines 191-207): while playing it first does
`pausedAt += elapsedWallTime * playbackRate` and then calls `pauseAudio`,
which overwrites `pausedAt` again; otherwise it plays. -/
def togglePlayPause (now : ℚ) (s : PlayerState) : PlayerState :=
  if s.isPlaying then
    pauseAudio now
      { s with pausedAt := s.pausedAt + (now - s.startTime) * s.playbackRate }
  else playAudio now s

/-- `togglePlayPause` of the first part_001 variant (lines 265-275):
delegates to `pauseAudioB`/`playAudioB` with no extra position update. -/
def togglePlayPauseB (now : ℚ) (s : PlayerState) : PlayerState :=
  if s.isPlaying then pauseAudioB now s else playAudioB now s

/-- `handleSpeedChange` (part_002 lines 237-256, identically part_001 lines
299-322 and 714-728): while playing, reads the current buffer position via
`getCurrentTime` and resets the anchor `pausedAt = position`,
`startTime = now`; in every case stores the new rate unclamped. -/
def handleSpeedChange (now newRate : ℚ) (s : PlayerState) : PlayerState :=
  if s.isPlaying then
    let r := getCurrentTime now s
    let s2 := { r.2 with pausedAt := r.1, startTime := now }
    { s2 with playbackRate := newRate }
  else { s with playbackRate := newRate }

/-- `handleScrub` (part_002 lines 272-290), with the seek target (the click
fraction times the duration) abstracted as `seekTime`: no-op without a
buffer; while playing, `internalPause`, set `pausedAt = seekTime`, restart
via `playAudio`; otherwise just hold `pausedAt = seekTime`.  No clamping. -/
def handleScrub (now seekTime : ℚ) (s : PlayerState) : PlayerState :=
  if s.hasBuffer then
    if s.isPlaying then playAudio now { (internalPause s) with pausedAt := seekTime }
    else { s with pausedAt := seekTime }
  else s

/-- `handleSeek` of the first part_001 variant (lines 345-356): during a
drag the engine is already `internalPause`d, so the handler only stores the
slider value as `pausedAt`, unclamped. -/
def handleSeekB (seekTime : ℚ) (s : PlayerState) : PlayerState :=
  if s.hasBuffer then { s with pausedAt := seekTime } else s

/-- The value computation of `setupKnob`'s mousemove handler (part_001
lines 458-472): `newValue = startValue + deltaY * (0.005 * (max - min))`,
then clamped below to `mn` and above to `mx` by two sequential tests. -/
def knobValue (mn mx startValue deltaY : ℚ) : ℚ :=
  let sensitivity := 5 / 1000 * (mx - mn)
  let newValue := startValue + deltaY * sensitivity
  let v1 := if newValue < mn then mn else newValue
  if v1 > mx then mx else v1

/-- The effects-graph state: `nodesReady` stands for the null test on
`dryNode`/`wetNode`; the gain fields are the `gain.value` parameters. -/
structure EffectsState where
  nodesReady : Bool
  reverbAmount : ℚ
  dryGain : ℚ
  wetGain : ℚ
deriving Repr, DecidableEq

/-- `updateReverbMix` (part_002 lines 264-270, part_001 lines 329-333):
no-op until the nodes exist; then dry gain `1 - reverbAmount`, wet gain
`reverbAmount * 2`. -/
def updateReverbMix (e : EffectsState) : EffectsState :=
  if e.nodesReady then
    { e with dryGain := 1 - e.reverbAmount, wetGain := e.reverbAmount * 2 }
  else e

/-- `handleReverbChange` (part_002 lines 258-262): stores the new amount
and applies `updateReverbMix`. -/
def handleReverbChange (val : ℚ) (e : EffectsState) : EffectsState :=
  updateReverbMix { e with reverbAmount := val }

/-- `Math.ceil(data.length / width)` of `drawWaveform` for natural
`n = data.length` and `w = width ≥ 1`. -/
def jsStep (n w : ℕ) : ℕ := (n + w - 1) / w

/-- One iteration of `drawWaveform`'s inner loop body (part_002 lines
313-317): `datum = data[idx]`; an in-range read updates the running
`(min, max)` by the two strict comparisons; an out-of-range read yields
`undefined`, both comparisons are false, and the pair is unchanged. -/
def updMinMax (data : List ℚ) (idx : ℕ) (mm : ℚ × ℚ) : ℚ × ℚ :=
  match data.get? idx with
  | none => mm
  | some d => (if d < mm.1 then d else mm.1, if d > mm.2 then d else mm.2)

/-- The inner `for (j = 0; j < step; j++)` loop: `fuel` iterations left,
reading consecutive indices from `idx`. -/
def colLoop (data : List ℚ) : ℕ → ℕ → ℚ × ℚ → ℚ × ℚ
  | _, 0, mm => mm
  | idx, fuel + 1, mm => colLoop data (idx + 1) fuel (updMinMax data idx mm)

/-- The `(min, max)` pair `drawWaveform` computes for pixel column `i`:
the inner loop over `j < step` from index `i * step`, starting from the
sentinels `min = 1.0`, `max = -1.0`. -/
def colMinMax (data : List ℚ) (step i : ℕ) : ℚ × ℚ :=
  colLoop data (i * step) step (1, -1)

/-- The whole envelope: one `(min, max)` pair per pixel column `i < w`,
with `step = Math.ceil(data.length / w)` (part_002 lines 299, 309-321). -/
def drawWaveformEnvelope (data : List ℚ) (w : ℕ) : List (ℚ × ℚ) :=
  (List.range w).map (fun i => colMinMax data (jsStep data.length w) i)

/-- The vertical segment `drawWaveform` draws for a column (part_002 lines
319-320): from `(1 + min) * amp` to `(1 + max) * amp` with
`amp = height / 2`. -/
def renderColumn (height : ℚ) (mm : ℚ × ℚ) : ℚ × ℚ :=
  ((1 + mm.1) * (height / 2), (1 + mm.2) * (height / 2))

/-- The window of samples column `i` covers as the spec describes it: the
`step` samples of the channel starting at index `i * step` (shorter at the
end of the array). -/
def windowSlice (data : List ℚ) (step i : ℕ) : List ℚ :=
  (data.drop (i * step)).take step

end MusicSlower

namespace MusicSlower

/-! ## Helper lemmas for the waveform envelope -/

/-- Once the read index is past the end of the sample array, the remaining
iterations of the inner loop change nothing. -/
lemma colLoop_past_end (data : List ℚ) (fuel : ℕ) :
    ∀ idx mm, data.length ≤ idx → colLoop data idx fuel mm = mm := by
  induction fuel with
  | zero => intro idx mm _; rfl
  | succ n ih =>
    intro idx mm h
    have hg : data.get? idx = none := List.get?_eq_none.mpr h
    simp only [colLoop, updMinMax, hg]
    exact ih (idx + 1) mm (by omega)

/-- The inner loop over `fuel` consecutive indices folds exactly over the
in-range samples, i.e. over `(data.drop idx).take fuel`. -/
lemma colLoop_eq_fold (data : List ℚ) (fuel : ℕ) :
    ∀ idx mm, colLoop data idx fuel mm =
      ((data.drop idx).take fuel).foldl
        (fun mm d => (if d < mm.1 then d else mm.1, if d > mm.2 then d else mm.2)) mm := by
  induction fuel with
  | zero => intro idx mm; simp [colLoop]
  | succ n ih =>
    intro idx mm
    cases hg : data.get? idx with
    | none =>
      have hlen : data.length ≤ idx := List.get?_eq_none.mp hg
      rw [List.drop_eq_nil_of_le hlen]
      simp only [List.take_nil, List.foldl_nil, colLoop, updMinMax, hg]
      exact colLoop_past_end data n (idx + 1) mm (by omega)
    | some d =>
      have hlt : idx < data.length := by
        by_contra hle
        rw [List.get?_eq_none.mpr (by omega)] at hg
        exact Option.noConfusion hg
      have hdrop : data.drop idx = data.get ⟨idx, hlt⟩ :: data.drop (idx + 1) := by
        rw [List.drop_eq_getElem_cons hlt]
        rfl
      have hget : data.get ⟨idx, hlt⟩ = d := by
        have := List.get?_eq_get hlt
        rw [hg] at this
        exact (Option.some.injEq _ _).mp this.symm
      rw [hdrop, hget]
      simp only [List.take_cons, List.foldl_cons, colLoop, updMinMax, hg]
      exact ih (idx + 1) _

/-- The paired fold splits into an independent running-minimum fold and
running-maximum fold. -/
lemma fold_components (l : List ℚ) :
    ∀ a b : ℚ,
      (l.foldl (fun mm d => (if d < mm.1 then d else mm.1, if d > mm.2 then d else mm.2)) (a, b)) =
        (l.foldl (fun m d => if d < m then d else m) a,
         l.foldl (fun m d => if d > m then d else m) b) := by
  induction l with
  | nil => intro a b; rfl
  | cons d t ih => intro a b; simp only [List.foldl_cons]; exact ih _ _

/-- The running minimum never exceeds its initial sentinel. -/
lemma foldMin_le_init (l : List ℚ) :
    ∀ a : ℚ, l.foldl (fun m d => if d < m then d else m) a ≤ a := by
  induction l with
  | nil => intro a; simp
  | cons d t ih =>
    intro a
    simp only [List.foldl_cons]
    refine le_trans (ih _) ?_
    split_ifs with h
    · exact h.le
    · exact le_refl a

/-- The running minimum is a lower bound of the list. -/
lemma foldMin_le_mem (l : List ℚ) :
    ∀ a x, x ∈ l → l.foldl (fun m d => if d < m then d else m) a ≤ x := by
  induction l with
  | nil => intro a x hx; simp at hx
  | cons d t ih =>
    intro a x hx
    simp only [List.foldl_cons]
    rcases List.mem_cons.mp hx with rfl | hx
    · refine le_trans (foldMin_le_init t _) ?_
      split_ifs with h
      · exact le_refl x
      · linarith
    · exact ih _ x hx

/-- The running minimum is the sentinel or an element of the list. -/
lemma foldMin_mem_or_init (l : List ℚ) :
    ∀ a, l.foldl (fun m d => if d < m then d else m) a = a ∨
      l.foldl (fun m d => if d < m then d else m) a ∈ l := by
  induction l with
  | nil => intro a; left; rfl
  | cons d t ih =>
    intro a
    simp only [List.foldl_cons]
    rcases ih (if d < a then d else a) with h | h
    · rw [h]
      split_ifs with hd
      · right; exact List.mem_cons_self d t
      · left; rfl
    · right; exact List.mem_cons_of_mem d h

/-- The running maximum never drops below its initial sentinel. -/
lemma foldMax_ge_init (l : List ℚ) :
    ∀ b : ℚ, b ≤ l.foldl (fun m d => if d > m then d else m) b := by
  induction l with
  | nil => intro b; simp
  | cons d t ih =>
    intro b
    simp only [List.foldl_cons]
    refine le_trans ?_ (ih _)
    split_ifs with h
    · exact h.le
    · exact le_refl b

/-- The running maximum is an upper bound of the list. -/
lemma foldMax_ge_mem (l : List ℚ) :
    ∀ b x, x ∈ l → x ≤ l.foldl (fun m d => if d > m then d else m) b := by
  induction l with
  | nil => intro b x hx; simp at hx
  | cons d t ih =>
    intro b x hx
    simp only [List.foldl_cons]
    rcases List.mem_cons.mp hx with rfl | hx
    · refine le_trans ?_ (foldMax_ge_init t _)
      split_ifs with h
      · exact le_refl x
      · linarith
    · exact ih _ x hx

/-- The running maximum is the sentinel or an element of the list. -/
lemma foldMax_mem_or_init (l : List ℚ) :
    ∀ b, l.foldl (fun m d => if d > m then d else m) b = b ∨
      l.foldl (fun m d => if d > m then d else m) b ∈ l := by
  induction l with
  | nil => intro b; left; rfl
  | cons d t ih =>
    intro b
    simp only [List.foldl_cons]
    rcases ih (if d > b then d else b) with h | h
    · rw [h]
      split_ifs with hd
      · right; exact List.mem_cons_self d t
      · left; rfl
    · right; exact List.mem_cons_of_mem d h

/-- Every sample of a window is a sample of the channel. -/
lemma windowSlice_subset (data : List ℚ) (step i : ℕ) :
    ∀ x ∈ windowSlice data step i, x ∈ data := fun _ hx =>
  List.mem_of_mem_drop (List.mem_of_mem_take hx)

/-- The `(min, max)` the source loop computes for column `i` is the pair of
sentinel-seeded folds over the window's in-range samples. -/
lemma colMinMax_eq_folds (data : List ℚ) (step i : ℕ) :
    colMinMax data step i =
      ((windowSlice data step i).foldl (fun m d => if d < m then d else m) 1,
       (windowSlice data step i).foldl (fun m d => if d > m then d else m) (-1)) := by
  rw [colMinMax, colLoop_eq_fold]
  exact fold_components (windowSlice data step i) 1 (-1)

end MusicSlower

namespace MusicSlower

/-! ## Supporting facts about the fixed variant -/

/-- Variant B of part_001 (seek then resume via `playAudioB`, which sets
`startTime = now`): an immediate position read returns the seek target,
as the spec requires.  Part_002's `playAudio` lacks this property. -/
lemma seekB_resume_reads_target (s : PlayerState) (now t : ℚ)
    (hb : s.hasBuffer = true) (ht : t ≤ s.duration) :
    (getCurrentTime now (playAudioB now (handleSeekB t (internalPause s)))).1 = t := by
  unfold handleSeekB internalPause playAudioB getCurrentTime
  simp only [hb, if_true, ite_true]
  have heq : t + (now - now) * s.playbackRate = t := by ring
  split_ifs with h
  · exfalso
    rw [heq] at h
    exact absurd ht (not_le.mpr h)
  · exact heq

/-! ## The claims -/

/-- C1: while Playing, `handleSpeedChange` to any new rate leaves the value
of `getCurrentTime` at the same instant unchanged, and resets the anchor to
`(now, p, r2)`: `pausedAt` becomes the position `p` read at the change,
`startTime` becomes `now`, and the stored rate becomes `r2`; only the
future rate of position change differs.  The equality is exact, so it holds
within any floating-point tolerance. -/
theorem handleSpeedChange_preserves_position (s : PlayerState) (now r2 : ℚ)
    (hp : s.isPlaying = true)
    (hr1 : 1/2 ≤ s.playbackRate ∧ s.playbackRate ≤ 3/2)
    (hr2 : 1/2 ≤ r2 ∧ r2 ≤ 3/2) :
    (getCurrentTime now (handleSpeedChange now r2 s)).1 = (getCurrentTime now s).1 ∧
    (handleSpeedChange now r2 s).pausedAt = (getCurrentTime now s).1 ∧
    (handleSpeedChange now r2 s).startTime = now ∧
    (handleSpeedChange now r2 s).playbackRate = r2 := by
  unfold handleSpeedChange getCurrentTime stopAudio
  by_cases h : s.pausedAt + (now - s.startTime) * s.playbackRate > s.duration
  · simp [hp, h]
  · simp [hp, h]

/-- Witness for C1: a concrete Playing state at rate 1, sped up to 3/2 at
device time 2; the position read straight after equals the one before. -/
theorem handleSpeedChange_preserves_position_witness :
    (⟨true, 10, true, 0, 0, 1⟩ : PlayerState).isPlaying = true ∧
    ((1 : ℚ)/2 ≤ (1 : ℚ) ∧ (1 : ℚ) ≤ 3/2) ∧ ((1 : ℚ)/2 ≤ (3 : ℚ)/2 ∧ (3 : ℚ)/2 ≤ 3/2) ∧
    (getCurrentTime 2 (handleSpeedChange 2 (3/2) ⟨true, 10, true, 0, 0, 1⟩)).1 =
      (getCurrentTime 2 (⟨true, 10, true, 0, 0, 1⟩ : PlayerState)).1 :=
  ⟨rfl, ⟨by norm_num, by norm_num⟩, ⟨by norm_num, by norm_num⟩,
    (handleSpeedChange_preserves_position ⟨true, 10, true, 0, 0, 1⟩ 2 (3/2) rfl
      ⟨by norm_num, by norm_num⟩ ⟨by norm_num, by norm_num⟩).1⟩

/-- C2 (failing-input evaluation): part_002's user-facing pause computes
the position correction in two places.  From the Playing state with anchor
`startTime = 0`, `pausedAt = 2`, rate 1/2, pausing at device time 4 should
hold `p = 2 + (4 - 0) * (1/2) = 4`; `togglePlayPause` first sets
`pausedAt` to that `p`, but then `pauseAudio` overwrites it with
`(4 - 0) * (1/2) = 2`, discarding the 2 seconds already played. -/
theorem togglePlayPause_holds_wrong_position :
    (togglePlayPause 4 ⟨true, 10, true, 0, 2, 1/2⟩).pausedAt = 2 ∧
    (2 : ℚ) + (4 - 0) * (1/2) = 4 ∧ (2 : ℚ) ≠ 4 := by
  norm_num [togglePlayPause, pauseAudio]

/-- C3 (failing-input evaluation): in part_002, seeking to `t = 4` while
Playing (duration 10, rate 1, anchored at `startTime = 0`, `pausedAt = 0`)
makes the immediate `getCurrentTime` read 8, not 4: `playAudio` sets
`startTime = now - pausedAt` while `getCurrentTime` also adds `pausedAt`,
counting the offset twice. -/
theorem handleScrub_position_not_target :
    (getCurrentTime 0 (handleScrub 0 4 ⟨true, 10, true, 0, 0, 1⟩)).1 = 8 ∧ (8 : ℚ) ≠ 4 := by
  norm_num [getCurrentTime, handleScrub, playAudio, internalPause]

/-- C4: while Playing, when the clock-model position strictly exceeds the
buffer duration, `getCurrentTime` returns exactly the duration and
transitions the transport to Stopped (`isPlaying = false`, node torn down,
held position and anchor reset by `stopAudio`). -/
theorem getCurrentTime_end_of_track (s : PlayerState) (now : ℚ)
    (hp : s.isPlaying = true)
    (hover : s.duration < s.pausedAt + (now - s.startTime) * s.playbackRate) :
    (getCurrentTime now s).1 = s.duration ∧
    (getCurrentTime now s).2.isPlaying = false ∧
    (getCurrentTime now s).2 = stopAudio s := by
  unfold getCurrentTime
  simp [hp, hover, stopAudio]

/-- Witness for C4: a 10-second buffer played from 0 at rate 1, read at
device time 11: the read returns 10 and the state is Stopped. -/
theorem getCurrentTime_end_of_track_witness :
    (⟨true, 10, true, 0, 0, 1⟩ : PlayerState).isPlaying = true ∧
    (⟨true, 10, true, 0, 0, 1⟩ : PlayerState).duration <
      (⟨true, 10, true, 0, 0, 1⟩ : PlayerState).pausedAt +
        (11 - (⟨true, 10, true, 0, 0, 1⟩ : PlayerState).startTime) *
          (⟨true, 10, true, 0, 0, 1⟩ : PlayerState).playbackRate ∧
    (getCurrentTime 11 (⟨true, 10, true, 0, 0, 1⟩ : PlayerState)).1 = 10 ∧
    (getCurrentTime 11 (⟨true, 10, true, 0, 0, 1⟩ : PlayerState)).2.isPlaying = false :=
  ⟨rfl, by norm_num,
    (getCurrentTime_end_of_track ⟨true, 10, true, 0, 0, 1⟩ 11 rfl (by norm_num)).1,
    (getCurrentTime_end_of_track ⟨true, 10, true, 0, 0, 1⟩ 11 rfl (by norm_num)).2.1⟩

/-- C5 (counterexample): the claim says the engine operations themselves
clamp, but `handleSpeedChange` stores a rate of 2 verbatim, outside
[1/2, 3/2], so the stored rate is not the clamped value. -/
theorem handleSpeedChange_stores_out_of_range_rate :
    (handleSpeedChange 0 2 ⟨true, 10, false, 0, 0, 1⟩).playbackRate = 2 ∧
    ¬ ((2 : ℚ) ≤ 3 / 2) := by
  norm_num [handleSpeedChange]

/-- C5 (amended): the engine operations `handleScrub` and
`handleSpeedChange` store the caller-supplied seek target and rate verbatim
and never reject an input; range enforcement lives in the input adapter:
`setupKnob`'s drag handler clamps its emitted value into `[mn, mx]`
(for the speed knob, `[1/2, 3/2]`). -/
theorem engine_stores_raw_adapter_clamps (s : PlayerState) (now t r mn mx sv dy : ℚ)
    (hb : s.hasBuffer = true) (hmn : mn ≤ mx) :
    (handleScrub now t s).pausedAt = t ∧
    (handleSpeedChange now r s).playbackRate = r ∧
    mn ≤ knobValue mn mx sv dy ∧ knobValue mn mx sv dy ≤ mx := by
  refine ⟨?_, ?_, ?_, ?_⟩
  · unfold handleScrub playAudio internalPause
    by_cases h : s.isPlaying <;> simp [hb, h]
  · unfold handleSpeedChange
    by_cases h : s.isPlaying <;> simp [h]
  · simp only [knobValue]
    split_ifs with h1 h2 h3 <;> linarith
  · simp only [knobValue]
    split_ifs with h1 h2 h3 <;> linarith

/-- Witness for C5's amended statement: with a loaded stopped state, a seek
target 3 and a rate 2 are stored verbatim, and a knob over [1/2, 3/2] emits
a value inside [1/2, 3/2]. -/
theorem engine_stores_raw_adapter_clamps_witness :
    (⟨true, 10, false, 0, 0, 1⟩ : PlayerState).hasBuffer = true ∧ (1 : ℚ)/2 ≤ (3 : ℚ)/2 ∧
    (handleScrub 0 3 ⟨true, 10, false, 0, 0, 1⟩).pausedAt = 3 ∧
    (handleSpeedChange 0 2 ⟨true, 10, false, 0, 0, 1⟩).playbackRate = 2 ∧
    (1 : ℚ)/2 ≤ knobValue (1/2) (3/2) 1 0 ∧ knobValue (1/2) (3/2) 1 0 ≤ (3 : ℚ)/2 :=
  ⟨rfl, by norm_num,
    (engine_stores_raw_adapter_clamps ⟨true, 10, false, 0, 0, 1⟩ 0 3 2 (1/2) (3/2) 1 0 rfl
      (by norm_num)).1,
    (engine_stores_raw_adapter_clamps ⟨true, 10, false, 0, 0, 1⟩ 0 3 2 (1/2) (3/2) 1 0 rfl
      (by norm_num)).2.1,
    (engine_stores_raw_adapter_clamps ⟨true, 10, false, 0, 0, 1⟩ 0 3 2 (1/2) (3/2) 1 0 rfl
      (by norm_num)).2.2.1,
    (engine_stores_raw_adapter_clamps ⟨true, 10, false, 0, 0, 1⟩ 0 3 2 (1/2) (3/2) 1 0 rfl
      (by norm_num)).2.2.2⟩

/-- C6 (counterexample): calling `pauseAudio` on a state that is already
Paused at position 5 (stale anchor `startTime = 0`, rate 1) at device time
7 overwrites the held position with `(7 - 0) * 1 = 7 ≠ 5`: repeated pause
is not a no-op on the held position. -/
theorem pauseAudio_when_paused_moves_position :
    (⟨true, 10, false, 0, 5, 1⟩ : PlayerState).isPlaying = false ∧
    (pauseAudio 7 ⟨true, 10, false, 0, 5, 1⟩).pausedAt = 7 ∧ (7 : ℚ) ≠ 5 := by
  norm_num [pauseAudio]

/-- C6 (amended): `stopAudio` on an already-Stopped state (held position 0)
leaves the held position unchanged and the transport Stopped; but
`pauseAudio` called when not Playing recomputes the held position from the
stale anchor as `(now - startTime) * playbackRate`, so repeated pause is a
no-op only when that expression happens to reproduce the held value. -/
theorem stop_idempotent_pause_recomputes (s : PlayerState) (now : ℚ)
    (hp : s.isPlaying = false) (hz : s.pausedAt = 0) :
    (stopAudio s).pausedAt = s.pausedAt ∧
    (stopAudio s).isPlaying = false ∧
    (pauseAudio now s).pausedAt = (now - s.startTime) * s.playbackRate := by
  unfold stopAudio pauseAudio
  simp [hz]

/-- Witness for C6's amended statement: a Stopped state with stale anchor
`startTime = 3` at device time 7. -/
theorem stop_idempotent_pause_recomputes_witness :
    (⟨true, 10, false, 3, 0, 1⟩ : PlayerState).isPlaying = false ∧
    (⟨true, 10, false, 3, 0, 1⟩ : PlayerState).pausedAt = 0 ∧
    (stopAudio ⟨true, 10, false, 3, 0, 1⟩).pausedAt =
      (⟨true, 10, false, 3, 0, 1⟩ : PlayerState).pausedAt ∧
    (pauseAudio 7 ⟨true, 10, false, 3, 0, 1⟩).pausedAt = (7 - 3) * 1 :=
  ⟨rfl, rfl,
    (stop_idempotent_pause_recomputes ⟨true, 10, false, 3, 0, 1⟩ 7 rfl rfl).1,
    (stop_idempotent_pause_recomputes ⟨true, 10, false, 3, 0, 1⟩ 7 rfl rfl).2.2⟩

/-- C7: with the effect nodes built, `handleReverbChange a` (the setMix
path) sets the dry gain to `1 - a` and the wet gain to `a * 2`; hence
`a = 0` gives dry 1 / wet 0 and `a = 1` gives dry 0 / wet 2. -/
theorem handleReverbChange_gains (e : EffectsState) (a : ℚ)
    (hn : e.nodesReady = true) (h0 : 0 ≤ a) (h1 : a ≤ 1) :
    (handleReverbChange a e).dryGain = 1 - a ∧
    (handleReverbChange a e).wetGain = a * 2 := by
  unfold handleReverbChange updateReverbMix
  simp [hn]

/-- Witness for C7: mix amount 1/2 on built nodes yields dry 1/2, wet 1. -/
theorem handleReverbChange_gains_witness :
    (⟨true, 0, 1, 0⟩ : EffectsState).nodesReady = true ∧
    (0 : ℚ) ≤ 1/2 ∧ (1 : ℚ)/2 ≤ 1 ∧
    (handleReverbChange (1/2) ⟨true, 0, 1, 0⟩).dryGain = 1 - 1/2 ∧
    (handleReverbChange (1/2) ⟨true, 0, 1, 0⟩).wetGain = (1/2) * 2 :=
  ⟨rfl, by norm_num, by norm_num,
    (handleReverbChange_gains ⟨true, 0, 1, 0⟩ (1/2) rfl (by norm_num) (by norm_num)).1,
    (handleReverbChange_gains ⟨true, 0, 1, 0⟩ (1/2) rfl (by norm_num) (by norm_num)).2⟩

/-- C9: while Playing with positive rate, two successive `getCurrentTime`
reads at device times `t1 ≤ t2` with no operation in between (the second
read acts on the state the first returned) yield non-decreasing positions,
as long as the first read has not yet reached the duration clamp. -/
theorem getCurrentTime_monotone (s : PlayerState) (t1 t2 : ℚ)
    (hp : s.isPlaying = true) (hr : 0 < s.playbackRate) (h12 : t1 ≤ t2)
    (hclamp : s.pausedAt + (t1 - s.startTime) * s.playbackRate ≤ s.duration) :
    (getCurrentTime t1 s).1 ≤ (getCurrentTime t2 (getCurrentTime t1 s).2).1 := by
  have hstep : (t1 - s.startTime) * s.playbackRate ≤ (t2 - s.startTime) * s.playbackRate :=
    mul_le_mul_of_nonneg_right (by linarith) hr.le
  have hnot : ¬ (s.pausedAt + (t1 - s.startTime) * s.playbackRate > s.duration) :=
    not_lt.mpr hclamp
  simp only [getCurrentTime, hp, hnot, if_true, if_false, ite_true, ite_false]
  split_ifs with h2
  · simpa using hclamp
  · simpa using hstep

/-- Witness for C9: reads at device times 1 and 2 of a state playing from 0
at rate 1 with duration 10. -/
theorem getCurrentTime_monotone_witness :
    (⟨true, 10, true, 0, 0, 1⟩ : PlayerState).isPlaying = true ∧
    (0 : ℚ) < 1 ∧ (1 : ℚ) ≤ 2 ∧ (0 : ℚ) + (1 - 0) * 1 ≤ 10 ∧
    (getCurrentTime 1 (⟨true, 10, true, 0, 0, 1⟩ : PlayerState)).1 ≤
      (getCurrentTime 2 (getCurrentTime 1 (⟨true, 10, true, 0, 0, 1⟩ : PlayerState)).2).1 :=
  ⟨rfl, by norm_num, by norm_num, by norm_num,
    getCurrentTime_monotone ⟨true, 10, true, 0, 0, 1⟩ 1 2 rfl (by norm_num) (by norm_num)
      (by norm_num)⟩

end MusicSlower

namespace MusicSlower

/-- C8 (counterexample): for 5 samples and pixel width 4 the step is
`ceil(5/4) = 2`, and window 2 — not the final window, since `2 + 1 < 4` —
holds only 1 sample, not `step`: the samples are not partitioned into `w`
windows of `step` samples with only the final one shorter. -/
theorem waveform_nonfinal_window_not_full :
    jsStep 5 4 = 2 ∧ 2 + 1 < 4 ∧
    (windowSlice [0, 0, 0, 0, (0 : ℚ)] (jsStep 5 4) 2).length = 1 ∧ (1 : ℕ) ≠ 2 := by decide

/-- C8 (amended): column `i` of the envelope covers the window
`windowSlice data step i` with `step = ceil(sampleCount / w)`; trailing
windows, not only the final one, may be shorter or even empty.  For a
nonempty window of normalized samples the computed pair is the window's
true minimum and maximum; an empty window yields the sentinel pair
`(1, -1)`.  The column is rendered as the vertical segment from
`(1 + min) * (height/2)` to `(1 + max) * (height/2)`, which for a nonempty
window lies inside the pixel range `[0, height]`. -/
theorem colMinMax_records_window_extrema (data : List ℚ) (w i : ℕ) (height : ℚ)
    (hw : 1 ≤ w) (hi : i < w) (hb : ∀ x ∈ data, -1 ≤ x ∧ x ≤ 1) :
    (windowSlice data (jsStep data.length w) i ≠ [] →
      ((colMinMax data (jsStep data.length w) i).1 ∈ windowSlice data (jsStep data.length w) i ∧
        ∀ x ∈ windowSlice data (jsStep data.length w) i,
          (colMinMax data (jsStep data.length w) i).1 ≤ x) ∧
      ((colMinMax data (jsStep data.length w) i).2 ∈ windowSlice data (jsStep data.length w) i ∧
        ∀ x ∈ windowSlice data (jsStep data.length w) i,
          x ≤ (colMinMax data (jsStep data.length w) i).2)) ∧
    (windowSlice data (jsStep data.length w) i = [] →
      colMinMax data (jsStep data.length w) i = (1, -1)) ∧
    renderColumn height (colMinMax data (jsStep data.length w) i) =
      ((1 + (colMinMax data (jsStep data.length w) i).1) * (height / 2),
       (1 + (colMinMax data (jsStep data.length w) i).2) * (height / 2)) ∧
    (windowSlice data (jsStep data.length w) i ≠ [] → 0 ≤ height →
      0 ≤ (renderColumn height (colMinMax data (jsStep data.length w) i)).1 ∧
      (renderColumn height (colMinMax data (jsStep data.length w) i)).2 ≤ height) := by
  set step := jsStep data.length w with hstep
  set slice := windowSlice data step i with hslice
  have hkey := colMinMax_eq_folds data step i
  refine ⟨?_, ?_, rfl, ?_⟩
  · intro hne
    obtain ⟨x0, hx0⟩ := List.exists_mem_of_ne_nil slice hne
    have hmin_mem : (colMinMax data step i).1 ∈ slice := by
      rw [hkey]
      rcases foldMin_mem_or_init slice 1 with h | h
      · rw [h]
        have h1le : ∀ x ∈ slice, (1 : ℚ) ≤ x := by
          intro x hx
          have := foldMin_le_mem slice 1 x hx
          rw [h] at this
          exact this
        have := (hb x0 (windowSlice_subset data step i x0 hx0)).2
        have := h1le x0 hx0
        have hx01 : x0 = 1 := le_antisymm ‹x0 ≤ 1› ‹1 ≤ x0›
        rw [← hx01]
        exact hx0
      · exact h
    have hmax_mem : (colMinMax data step i).2 ∈ slice := by
      rw [hkey]
      rcases foldMax_mem_or_init slice (-1) with h | h
      · rw [h]
        have h1le : ∀ x ∈ slice, x ≤ (-1 : ℚ) := by
          intro x hx
          have := foldMax_ge_mem slice (-1) x hx
          rw [h] at this
          exact this
        have := (hb x0 (windowSlice_subset data step i x0 hx0)).1
        have := h1le x0 hx0
        have hx01 : x0 = -1 := le_antisymm ‹x0 ≤ -1› ‹-1 ≤ x0›
        rw [← hx01]
        exact hx0
      · exact h
    refine ⟨⟨hmin_mem, ?_⟩, ⟨hmax_mem, ?_⟩⟩
    · intro x hx
      rw [hkey]
      exact foldMin_le_mem slice 1 x hx
    · intro x hx
      rw [hkey]
      exact foldMax_ge_mem slice (-1) x hx
  · intro hnil
    rw [hkey, ← hslice, hnil]
    rfl
  · intro hne hh
    obtain ⟨x0, hx0⟩ := List.exists_mem_of_ne_nil slice hne
    have hmin_mem : (colMinMax data step i).1 ∈ slice := by
      rw [hkey]
      rcases foldMin_mem_or_init slice 1 with h | h
      · rw [h]
        have h1le := foldMin_le_mem slice 1 x0 hx0
        rw [h] at h1le
        have := (hb x0 (windowSlice_subset data step i x0 hx0)).2
        have hx01 : x0 = 1 := le_antisymm ‹x0 ≤ 1› h1le
        rw [← hx01]; exact hx0
      · exact h
    have hmax_mem : (colMinMax data step i).2 ∈ slice := by
      rw [hkey]
      rcases foldMax_mem_or_init slice (-1) with h | h
      · rw [h]
        have h1le := foldMax_ge_mem slice (-1) x0 hx0
        rw [h] at h1le
        have := (hb x0 (windowSlice_subset data step i x0 hx0)).1
        have hx01 : x0 = -1 := le_antisymm h1le ‹-1 ≤ x0›
        rw [← hx01]; exact hx0
      · exact h
    have hminb := hb _ (windowSlice_subset data step i _ hmin_mem)
    have hmaxb := hb _ (windowSlice_subset data step i _ hmax_mem)
    constructor
    · have h0 : 0 ≤ 1 + (colMinMax data step i).1 := by linarith [hminb.1]
      exact mul_nonneg h0 (by linarith)
    · have h2 : 1 + (colMinMax data step i).2 ≤ 2 := by linarith [hmaxb.2]
      have h3 := mul_le_mul_of_nonneg_right h2 (by linarith : (0:ℚ) ≤ height / 2)
      calc (renderColumn height (colMinMax data step i)).2
        = (1 + (colMinMax data step i).2) * (height / 2) := rfl
        _ ≤ 2 * (height / 2) := h3
        _ = height := by ring

/-- Witness for C8's amended statement: the 3-sample channel
`[1/2, -1/2, 0]` at pixel width 2 and height 2, column 0. -/
theorem colMinMax_records_window_extrema_witness :
    1 ≤ 2 ∧ 0 < 2 ∧ (∀ x ∈ [(1 : ℚ)/2, -1/2, 0], -1 ≤ x ∧ x ≤ 1) ∧
    renderColumn 2 (colMinMax [(1 : ℚ)/2, -1/2, 0] (jsStep ([(1 : ℚ)/2, -1/2, 0]).length 2) 0) =
      ((1 + (colMinMax [(1 : ℚ)/2, -1/2, 0]
          (jsStep ([(1 : ℚ)/2, -1/2, 0]).length 2) 0).1) * (2 / 2),
       (1 + (colMinMax [(1 : ℚ)/2, -1/2, 0]
          (jsStep ([(1 : ℚ)/2, -1/2, 0]).length 2) 0).2) * (2 / 2)) :=
  ⟨by decide, by decide,
    by
      intro x hx
      simp only [List.mem_cons, List.not_mem_nil, or_false] at hx
      rcases hx with rfl | rfl | rfl <;> norm_num,
    (colMinMax_records_window_extrema [(1 : ℚ)/2, -1/2, 0] 2 0 2 (by decide) (by decide)
      (by
        intro x hx
        simp only [List.mem_cons, List.not_mem_nil, or_false] at hx
        rcases hx with rfl | rfl | rfl <;> norm_num)).2.2.1⟩

/-- C10 (counterexample): for 3 samples and pixel width 2 the step is 2 and
the inner loop at column `i = 1`, offset `j = 1` reads index
`1 * 2 + 1 = 3`, which is not below the sample count 3; in the embedding's
Option-returning indexing the access is out of range. -/
theorem drawWaveform_reads_out_of_range :
    1 < 2 ∧ 1 < jsStep 3 2 ∧ ¬ (1 * jsStep 3 2 + 1 < 3) ∧
    ([(0 : ℚ), 0, 0].get? (1 * jsStep 3 2 + 1)) = none := by decide

/-- C10 (amended): when the pixel width divides the sample count every
index the envelope loop reads is in bounds; and any out-of-range read is a
no-op on the running `(min, max)` (the JS `undefined` comparisons fail), so
the computed envelope is unaffected in the general case. -/
theorem drawWaveform_inbounds_of_dvd (data : List ℚ) (w i j idx : ℕ) (mm : ℚ × ℚ)
    (hw : 1 ≤ w) (hdvd : w ∣ data.length) (hi : i < w) (hj : j < jsStep data.length w)
    (hidx : data.length ≤ idx) :
    i * jsStep data.length w + j < data.length ∧ updMinMax data idx mm = mm := by
  constructor
  · obtain ⟨k, hk⟩ := hdvd
    have hs : jsStep data.length w = k := by
      rw [jsStep, hk]
      have h1 : w * k + w - 1 = (w - 1) + w * k := by omega
      rw [h1, Nat.add_mul_div_left _ _ (by omega : 0 < w), Nat.div_eq_of_lt (by omega)]
      omega
    rw [hs] at hj ⊢
    calc i * k + j < i * k + k := by omega
      _ = (i + 1) * k := by ring
      _ ≤ w * k := Nat.mul_le_mul_right k hi
      _ = data.length := hk.symm
  · have hg : data.get? idx = none := List.get?_eq_none.mpr hidx
    unfold updMinMax
    rw [hg]

/-- Witness for C10's amended statement: 2 samples at pixel width 2
(step 1): the access at column 1, offset 0 is in bounds, and a read at the
out-of-range index 5 leaves the running pair untouched. -/
theorem drawWaveform_inbounds_of_dvd_witness :
    1 ≤ 2 ∧ 2 ∣ ([(0 : ℚ), 0]).length ∧ 1 < 2 ∧ 0 < jsStep ([(0 : ℚ), 0]).length 2 ∧
    ([(0 : ℚ), 0]).length ≤ 5 ∧
    1 * jsStep ([(0 : ℚ), 0]).length 2 + 0 < ([(0 : ℚ), 0]).length ∧
    updMinMax [(0 : ℚ), 0] 5 (1, -1) = (1, -1) :=
  ⟨by decide, by decide, by decide, by decide, by decide,
    (drawWaveform_inbounds_of_dvd [(0 : ℚ), 0] 2 1 0 5 (1, -1) (by decide) (by decide)
      (by decide) (by decide) (by decide)).1,
    (drawWaveform_inbounds_of_dvd [(0 : ℚ), 0] 2 1 0 5 (1, -1) (by decide) (by decide)
      (by decide) (by decide) (by decide)).2⟩

end MusicSlower
